import Mathlib

/-!
# Verification of the expenso finance-tracker ledger

Shallow embedding of `src/main.rs` (a single-file in-memory finance
tracker).  `f64` amounts are modelled as exact rationals `ℚ`: every claim
below is a structural identity about how the ledger aggregates amounts,
stated over ideal arithmetic.  The `HashMap<String, f64>` of category
totals is modelled as an association list (lookup by key; insertion
position of a fresh key is irrelevant to every claim, which only speak of
lookups and key membership), and the `HashSet<String>` of categories as a
duplicate-free list queried by membership.
-/

/-- Rust `enum TransactionType` from `src/main.rs`: `Income` or `Expense`. -/
inductive TransactionType where
  | Income : TransactionType
  | Expense : TransactionType
deriving DecidableEq, Repr

/-- Rust `str::to_lowercase` restricted to the characters the program
compares against (`"income"` / `"expense"` are ASCII, and `Char.toLower`
agrees with Unicode lowercasing on ASCII). -/
def toLowerStr (s : String) : String :=
  String.mk (s.data.map Char.toLower)

/-- Conversion `impl From<&str> for TransactionType` (src/main.rs lines 19-27):
match on the lowercased string; anything other than `"income"` or
`"expense"` falls through to `Expense`. -/
def TransactionType.fromStr (s : String) : TransactionType :=
  if toLowerStr s = "income" then TransactionType.Income
  else if toLowerStr s = "expense" then TransactionType.Expense
  else TransactionType.Expense

/-- Rust `struct Transaction` from `src/main.rs` (amount as exact `ℚ`). -/
structure Transaction where
  id : Nat
  description : String
  amount : ℚ
  is_recurring : Bool
  date : String
  transaction_type : TransactionType
  category : String
deriving DecidableEq, Repr

/-- Association-list update mirroring
`category_totals.entry(category).and_modify(|t| *t += amount).or_insert(amount)`:
if the key is present its value is increased in place, otherwise the pair
`(c, a)` is inserted. -/
def updateTotals : List (String × ℚ) → String → ℚ → List (String × ℚ)
  | [], c, a => [(c, a)]
  | (k, v) :: rest, c, a =>
      if k = c then (k, v + a) :: rest else (k, v) :: updateTotals rest c a

/-- Lookup `HashMap::get` on the association-list model (the accessor the
repository's tests use on `category_breakdown()`): `none` when the key is
absent. -/
def lookupTotal : List (String × ℚ) → String → Option ℚ
  | [], _ => none
  | (k, v) :: rest, c => if k = c then some v else lookupTotal rest c

/-- Insertion `HashSet::insert`: add the element unless already present. -/
def insertSet (s : List String) (c : String) : List String :=
  if c ∈ s then s else s ++ [c]

/-- Rust `struct FinanceTracker` from `src/main.rs`. -/
structure FinanceTracker where
  transactions : List Transaction
  category_totals : List (String × ℚ)
  unique_categories : List String
  next_id : Nat
deriving Repr

/-- Constructor `FinanceTracker::new` (src/main.rs lines 49-56): everything empty,
`next_id` starts at 1. -/
def FinanceTracker.new : FinanceTracker :=
  { transactions := []
    category_totals := []
    unique_categories := []
    next_id := 1 }

/-- Mutation `FinanceTracker::add_transaction` (src/main.rs lines 58-87): push the
new transaction with `id = next_id`, fold the amount into
`category_totals`, record the category, increment `next_id`. -/
def FinanceTracker.add_transaction (tr : FinanceTracker) (description : String)
    (amount : ℚ) (recurring : Bool) (date : String)
    (ttype : TransactionType) (category : String) : FinanceTracker :=
  { transactions := tr.transactions ++
      [{ id := tr.next_id
         description := description
         amount := amount
         is_recurring := recurring
         date := date
         transaction_type := ttype
         category := category }]
    category_totals := updateTotals tr.category_totals category amount
    unique_categories := insertSet tr.unique_categories category
    next_id := tr.next_id + 1 }

/-- Query `FinanceTracker::total_income` (src/main.rs lines 89-95): filter on
`Income`, map to amount, sum. -/
def FinanceTracker.total_income (tr : FinanceTracker) : ℚ :=
  ((tr.transactions.filter
      (fun t => t.transaction_type == TransactionType.Income)).map
    (fun t => t.amount)).sum

/-- Query `FinanceTracker::total_expense` (src/main.rs lines 97-103). -/
def FinanceTracker.total_expense (tr : FinanceTracker) : ℚ :=
  ((tr.transactions.filter
      (fun t => t.transaction_type == TransactionType.Expense)).map
    (fun t => t.amount)).sum

/-- Query `FinanceTracker::net_balance` (src/main.rs lines 105-107). -/
def FinanceTracker.net_balance (tr : FinanceTracker) : ℚ :=
  tr.total_income - tr.total_expense

/-- Query `FinanceTracker::average_transaction` (src/main.rs lines 109-119):
explicit guard returning 0 on an empty ledger, otherwise sum of all
amounts divided by the count. -/
def FinanceTracker.average_transaction (tr : FinanceTracker) : ℚ :=
  if tr.transactions.isEmpty then 0
  else (tr.transactions.map (fun t => t.amount)).sum / (tr.transactions.length : ℚ)

/-- Query `FinanceTracker::category_breakdown` (src/main.rs lines 121-123):
returns the live `category_totals` map. -/
def FinanceTracker.category_breakdown (tr : FinanceTracker) : List (String × ℚ) :=
  tr.category_totals

/-- Query `FinanceTracker::get_transactions` (src/main.rs lines 125-127):
returns the transaction list as stored (insertion order). -/
def FinanceTracker.get_transactions (tr : FinanceTracker) : List Transaction :=
  tr.transactions

/-- The arguments of one `add_transaction` call. -/
structure AddArgs where
  description : String
  amount : ℚ
  recurring : Bool
  date : String
  ttype : TransactionType
  category : String
deriving Repr

/-- Run one `add_transaction` call from an argument record. -/
def applyAdd (tr : FinanceTracker) (a : AddArgs) : FinanceTracker :=
  tr.add_transaction a.description a.amount a.recurring a.date a.ttype a.category

/-- The ledger obtained from a fresh tracker by a sequence of
`add_transaction` calls. -/
def applyAdds (args : List AddArgs) : FinanceTracker :=
  args.foldl applyAdd FinanceTracker.new

/-- Sum of the amounts of the transactions recorded under category `c`
("sum of amount over all transactions whose category equals c"). -/
def catFilterSum (ts : List Transaction) (c : String) : ℚ :=
  ((ts.filter (fun t => t.category == c)).map (fun t => t.amount)).sum

/-- Spec-side restatement of "sum of amount over all transactions where
kind is `ty`", written independently of the filter-then-map shape of the
code: each transaction contributes its amount when its kind matches and 0
otherwise. -/
def sumAmountsOfKind (ts : List Transaction) (ty : TransactionType) : ℚ :=
  (ts.map (fun t => if t.transaction_type = ty then t.amount else 0)).sum

/-- The internal consistency the tracker maintains across insertions:
category totals agree with the per-category sums over the transaction
list, a category has an entry exactly when some transaction carries it,
and the `unique_categories` set has the same members as the key set of
`category_totals`. -/
def TrackerInv (tr : FinanceTracker) : Prop :=
  (∀ c, (lookupTotal tr.category_totals c).getD 0 = catFilterSum tr.transactions c) ∧
  (∀ c, (lookupTotal tr.category_totals c).isSome = true ↔
      c ∈ tr.transactions.map Transaction.category) ∧
  (∀ c, c ∈ tr.unique_categories ↔ (lookupTotal tr.category_totals c).isSome = true)

/-- The four-transaction scenario of the spec (and of the repository's
test fixture `create_test_tracker`). -/
def demoArgs : List AddArgs :=
  [ ⟨"Salary", 5000, true, "2025-01-04", TransactionType.Income, "Work"⟩,
    ⟨"Freelance", 1500, false, "2024-01-20", TransactionType.Income, "Work"⟩,
    ⟨"Rent", 2000, true, "2024-01-01", TransactionType.Expense, "Housing"⟩,
    ⟨"Groceries", 500, false, "2024-01-10", TransactionType.Expense, "Food"⟩ ]

/-!
## Model of `parse_amount` and the interactive amount loop

`parse_amount` (src/main.rs lines 142-144) delegates to Rust's standard
library `str::parse::<f64>`.  That library function is modelled here from
its documented grammar
`Float ::= Sign? ( inf | infinity | nan | Number )`,
`Number ::= Count . Count? Exp? | Count Exp? | . Count Exp?`,
`Exp ::= (e|E) Sign? Count`, `Count ::= [0-9]+`, where the three words are
matched case-insensitively.  The parsed value is kept symbolically: a
finite rational, positive or negative infinity, or a not-a-number marker,
so that non-finite results stay observable. -/
inductive FloatVal where
  | finite (q : ℚ) : FloatVal
  | posInf : FloatVal
  | negInf : FloatVal
  | nan : FloatVal
deriving DecidableEq, Repr

/-- Value of a digit run read in base 10. -/
def digitsToNat (l : List Char) : Nat :=
  l.foldl (fun acc c => acc * 10 + (c.toNat - 48)) 0

/-- Nonterminal `Count`: one or more digits, fully consuming the input. -/
def parseCount (l : List Char) : Option Nat :=
  if l ≠ [] ∧ l.all Char.isDigit then some (digitsToNat l) else none

/-- Optional sign then `Count`, for the exponent. -/
def parseExpTail : List Char → Option Int
  | '+' :: l => (parseCount l).map Int.ofNat
  | '-' :: l => (parseCount l).map (fun n => -(n : Int))
  | l => (parseCount l).map Int.ofNat

/-- Optional exponent suffix applied to a mantissa. -/
def withExp (mant : ℚ) : List Char → Option ℚ
  | [] => some mant
  | c :: l =>
      if c = 'e' ∨ c = 'E' then (parseExpTail l).map (fun e => mant * (10 : ℚ) ^ e)
      else none

/-- Nonterminal `Number` (after the optional leading sign): integer part, optional
fractional part, optional exponent. -/
def parseNumber (l : List Char) : Option ℚ :=
  let intPart := l.takeWhile Char.isDigit
  let rest := l.dropWhile Char.isDigit
  match rest with
  | '.' :: rest2 =>
      let fracPart := rest2.takeWhile Char.isDigit
      let rest3 := rest2.dropWhile Char.isDigit
      if intPart.isEmpty && fracPart.isEmpty then none
      else
        withExp ((digitsToNat intPart : ℚ) +
          (digitsToNat fracPart : ℚ) / (10 : ℚ) ^ fracPart.length) rest3
  | rest1 =>
      if intPart.isEmpty then none
      else withExp (digitsToNat intPart : ℚ) rest1

/-- Modelled from the documented grammar of Rust's `str::parse::<f64>`
(standard-library code, not part of this repository): `parse_amount`
(src/main.rs lines 142-144) is exactly this call.  Returns `none` on
strings the grammar rejects. -/
def parse_amount (s : String) : Option FloatVal :=
  let chars := s.data
  let sign : Bool × List Char :=
    match chars with
    | '+' :: r => (false, r)
    | '-' :: r => (true, r)
    | r => (false, r)
  let neg := sign.1
  let body := sign.2
  let low := body.map Char.toLower
  if low = "inf".data ∨ low = "infinity".data then
    some (if neg then FloatVal.negInf else FloatVal.posInf)
  else if low = "nan".data then some FloatVal.nan
  else (parseNumber body).map (fun q => FloatVal.finite (if neg then -q else q))

/-- The amount-collection loop of `add_transaction_interactive`
(src/main.rs lines 166-172): keep prompting until a line parses; the
first parseable line becomes the amount handed to `add_transaction`.
The loop is modelled on the finite list of lines the user will type;
`none` means every supplied line was rejected (the real loop would still
be prompting). -/
def amountLoop : List String → Option FloatVal
  | [] => none
  | s :: rest =>
      match parse_amount s with
      | some v => some v
      | none => amountLoop rest

/-! ## Helper lemmas -/

lemma lookupTotal_updateTotals_self (m : List (String × ℚ)) (c : String) (a : ℚ) :
    lookupTotal (updateTotals m c a) c = some ((lookupTotal m c).getD 0 + a) := by
  induction m with
  | nil => simp [updateTotals, lookupTotal]
  | cons p rest ih =>
    obtain ⟨k, v⟩ := p
    by_cases hk : k = c
    · subst hk
      simp [updateTotals, lookupTotal]
    · simp [updateTotals, hk, lookupTotal, ih]

lemma lookupTotal_updateTotals_ne (m : List (String × ℚ)) (c k : String) (a : ℚ)
    (h : k ≠ c) : lookupTotal (updateTotals m c a) k = lookupTotal m k := by
  induction m with
  | nil => simp [updateTotals, lookupTotal, Ne.symm h]
  | cons p rest ih =>
    obtain ⟨k1, v⟩ := p
    by_cases hk : k1 = c
    · subst hk
      simp [updateTotals, lookupTotal, Ne.symm h]
    · simp [updateTotals, hk, lookupTotal, ih]

lemma isSome_lookupTotal_updateTotals (m : List (String × ℚ)) (c k : String) (a : ℚ) :
    (lookupTotal (updateTotals m c a) k).isSome = true ↔
      k = c ∨ (lookupTotal m k).isSome = true := by
  by_cases hk : k = c
  · subst hk
    simp [lookupTotal_updateTotals_self]
  · simp [lookupTotal_updateTotals_ne m c k a hk, hk]

lemma mem_keys_iff_isSome (m : List (String × ℚ)) (c : String) :
    c ∈ m.map Prod.fst ↔ (lookupTotal m c).isSome = true := by
  induction m with
  | nil => simp [lookupTotal]
  | cons p rest ih =>
    obtain ⟨k, v⟩ := p
    by_cases hk : k = c
    · subst hk
      simp [lookupTotal]
    · simp [lookupTotal, hk, Ne.symm hk, ih]

lemma mem_insertSet (s : List String) (c k : String) :
    k ∈ insertSet s c ↔ k ∈ s ∨ k = c := by
  by_cases hc : c ∈ s
  · constructor
    · intro h
      exact Or.inl (by simpa [insertSet, hc] using h)
    · intro h
      rcases h with h | h
      · simpa [insertSet, hc] using h
      · subst h
        simp [insertSet, hc]
  · simp [insertSet, hc]

lemma catFilterSum_append (ts us : List Transaction) (c : String) :
    catFilterSum (ts ++ us) c = catFilterSum ts c + catFilterSum us c := by
  simp [catFilterSum, List.filter_append]

lemma trackerInv_new : TrackerInv FinanceTracker.new := by
  refine ⟨fun c => ?_, fun c => ?_, fun c => ?_⟩ <;>
    simp [FinanceTracker.new, lookupTotal, catFilterSum]

lemma trackerInv_applyAdd (tr : FinanceTracker) (a : AddArgs) (h : TrackerInv tr) :
    TrackerInv (applyAdd tr a) := by
  obtain ⟨h1, h2, h3⟩ := h
  refine ⟨fun c => ?_, fun c => ?_, fun c => ?_⟩
  · by_cases hc : c = a.category
    · subst hc
      simp only [applyAdd, FinanceTracker.add_transaction, lookupTotal_updateTotals_self,
        Option.getD_some, catFilterSum_append, h1]
      simp [catFilterSum]
    · simp only [applyAdd, FinanceTracker.add_transaction,
        lookupTotal_updateTotals_ne _ _ _ _ hc, h1, catFilterSum_append]
      simp [catFilterSum, Ne.symm hc]
  · simp only [applyAdd, FinanceTracker.add_transaction, isSome_lookupTotal_updateTotals,
      h2, List.map_append, List.mem_append]
    simp [or_comm]
  · simp only [applyAdd, FinanceTracker.add_transaction, mem_insertSet, h3,
      isSome_lookupTotal_updateTotals]
    simp [or_comm]

lemma trackerInv_foldl (args : List AddArgs) (tr : FinanceTracker) (h : TrackerInv tr) :
    TrackerInv (args.foldl applyAdd tr) := by
  induction args generalizing tr with
  | nil => exact h
  | cons a args ih => exact ih _ (trackerInv_applyAdd tr a h)

lemma trackerInv_applyAdds (args : List AddArgs) : TrackerInv (applyAdds args) :=
  trackerInv_foldl args FinanceTracker.new trackerInv_new

lemma map_category_foldl (args : List AddArgs) (tr : FinanceTracker) :
    ((args.foldl applyAdd tr).transactions).map Transaction.category =
      tr.transactions.map Transaction.category ++ args.map AddArgs.category := by
  induction args generalizing tr with
  | nil => simp
  | cons a args ih =>
    simp [List.foldl_cons, ih, applyAdd, FinanceTracker.add_transaction]

lemma map_id_foldl (args : List AddArgs) (tr : FinanceTracker) :
    ((args.foldl applyAdd tr).transactions).map Transaction.id =
      tr.transactions.map Transaction.id ++ List.range' tr.next_id args.length ∧
    (args.foldl applyAdd tr).next_id = tr.next_id + args.length := by
  induction args generalizing tr with
  | nil => simp
  | cons a args ih =>
    obtain ⟨ih1, ih2⟩ := ih (applyAdd tr a)
    constructor
    · rw [List.foldl_cons, ih1]
      simp [applyAdd, FinanceTracker.add_transaction, List.range'_succ]
    · rw [List.foldl_cons, ih2]
      simp [applyAdd, FinanceTracker.add_transaction]
      omega

lemma pairwise_lt_range' (s n : Nat) : (List.range' s n).Pairwise (· < ·) := by
  induction n generalizing s with
  | zero => simp
  | succ n ih =>
    rw [List.range'_succ]
    exact List.Pairwise.cons (fun b hb => by have := List.mem_range'_1.mp hb; omega) (ih (s + 1))

lemma kindSum_filter_eq (ts : List Transaction) (ty : TransactionType) :
    ((ts.filter (fun t => t.transaction_type == ty)).map (fun t => t.amount)).sum =
      sumAmountsOfKind ts ty := by
  induction ts with
  | nil => simp [sumAmountsOfKind]
  | cons t ts ih =>
    simp only [sumAmountsOfKind, List.map_cons, List.sum_cons, List.filter_cons] at ih ⊢
    by_cases ht : t.transaction_type = ty
    · simp [ht, ih]
    · simp [ht, ih]

lemma kindSum_partition (ts : List Transaction) :
    ((ts.filter (fun t => t.transaction_type == TransactionType.Income)).map
        (fun t => t.amount)).sum +
      ((ts.filter (fun t => t.transaction_type == TransactionType.Expense)).map
        (fun t => t.amount)).sum =
      (ts.map (fun t => t.amount)).sum := by
  induction ts with
  | nil => simp
  | cons t ts ih =>
    cases ht : t.transaction_type with
    | Income =>
      simp [List.filter_cons, ht]
      linarith [ih]
    | Expense =>
      simp [List.filter_cons, ht]
      linarith [ih]

/-! ## Claim theorems -/

/-- Claim C1: after any sequence of `add_transaction` calls, for every category
`c` ever inserted, the entry of `c` in the mapping returned by
`category_breakdown` equals the sum of `amount` over all transactions
whose category equals `c`; the invariant holds after every insertion
(every prefix of the sequence is itself a sequence of adds). -/
theorem categoryTotals_correct (args : List AddArgs) (c : String)
    (h : c ∈ args.map AddArgs.category) :
    lookupTotal (applyAdds args).category_breakdown c =
      some (catFilterSum (applyAdds args).transactions c) := by
  obtain ⟨h1, h2, h3⟩ := trackerInv_applyAdds args
  have hmem : c ∈ (applyAdds args).transactions.map Transaction.category := by
    rw [applyAdds, map_category_foldl args FinanceTracker.new]
    simpa [FinanceTracker.new] using h
  have hsome := (h2 c).mpr hmem
  obtain ⟨v, hv⟩ := Option.isSome_iff_exists.mp hsome
  have hval := h1 c
  rw [hv] at hval
  simp only [Option.getD_some] at hval
  rw [FinanceTracker.category_breakdown, hv, hval]

/-- Witness for C1: in the four-transaction demo scenario, the "Work"
entry of the breakdown equals the sum over the "Work" transactions. -/
theorem categoryTotals_correct_witness :
    "Work" ∈ demoArgs.map AddArgs.category ∧
    lookupTotal (applyAdds demoArgs).category_breakdown "Work" =
      some (catFilterSum (applyAdds demoArgs).transactions "Work") :=
  ⟨by decide, categoryTotals_correct demoArgs "Work" (by decide)⟩

/-- Claim C2: after any sequence of `add_transaction` calls on a fresh tracker,
the stored ids are exactly `1, 2, …, n` in insertion order (each id is the
transaction's 1-based insertion rank), they are strictly increasing and
never repeated, and `next_id` is one past the number of insertions. -/
theorem transaction_ids_spec (args : List AddArgs) :
    ((applyAdds args).transactions).map Transaction.id = List.range' 1 args.length ∧
    (((applyAdds args).transactions).map Transaction.id).Pairwise (· < ·) ∧
    (((applyAdds args).transactions).map Transaction.id).Nodup ∧
    (applyAdds args).next_id = args.length + 1 := by
  obtain ⟨h1, h2⟩ := map_id_foldl args FinanceTracker.new
  have hmap : ((applyAdds args).transactions).map Transaction.id =
      List.range' 1 args.length := by
    simpa [applyAdds, FinanceTracker.new] using h1
  refine ⟨hmap, ?_, ?_, ?_⟩
  · rw [hmap]
    exact pairwise_lt_range' 1 args.length
  · rw [hmap]
    exact (pairwise_lt_range' 1 args.length).imp (fun hlt => Nat.ne_of_lt hlt)
  · simpa [applyAdds, FinanceTracker.new, Nat.add_comm] using h2

/-- Claim C3: `total_income` sums the amounts of the `Income` transactions,
`total_expense` sums the amounts of the `Expense` transactions (stated
against the independently written `sumAmountsOfKind`), and both are 0 on
an empty ledger. -/
theorem totals_by_kind_spec (tr : FinanceTracker) :
    tr.total_income = sumAmountsOfKind tr.transactions TransactionType.Income ∧
    tr.total_expense = sumAmountsOfKind tr.transactions TransactionType.Expense ∧
    (tr.transactions = [] → tr.total_income = 0 ∧ tr.total_expense = 0) := by
  refine ⟨kindSum_filter_eq _ _, kindSum_filter_eq _ _, fun h => ?_⟩
  constructor <;> simp [FinanceTracker.total_income, FinanceTracker.total_expense, h]

/-- Witness for C3: the fresh tracker has no transactions and both totals
are 0. -/
theorem totals_by_kind_spec_witness :
    FinanceTracker.new.transactions = [] ∧
    FinanceTracker.new.total_income = 0 ∧ FinanceTracker.new.total_expense = 0 :=
  ⟨rfl, (totals_by_kind_spec FinanceTracker.new).2.2 rfl⟩

/-- Claim C4: `net_balance` is `total_income` minus `total_expense` on every
ledger state. -/
theorem net_balance_spec (tr : FinanceTracker) :
    tr.net_balance = tr.total_income - tr.total_expense := rfl

/-- Claim C5: `average_transaction` returns exactly 0 on a ledger with zero
transactions (the explicit emptiness guard), and on a ledger with
`n ≥ 1` transactions returns the sum of all amounts (regardless of kind)
divided by `n`. -/
theorem average_transaction_spec (tr : FinanceTracker) (n : Nat)
    (hn : tr.transactions.length = n) :
    (n = 0 → tr.average_transaction = 0) ∧
    (1 ≤ n → tr.average_transaction =
      (tr.transactions.map (fun t => t.amount)).sum / (n : ℚ)) := by
  subst hn
  constructor
  · intro h0
    have : tr.transactions = [] := List.length_eq_zero.mp h0
    simp [FinanceTracker.average_transaction, this]
  · intro h1
    have : tr.transactions.isEmpty = false := by
      cases htr : tr.transactions with
      | nil => rw [htr] at h1; simp at h1
      | cons t ts => simp
    simp [FinanceTracker.average_transaction, this]

/-- Witness for C5: the demo scenario has 4 ≥ 1 transactions and its
average is the sum of the four amounts divided by 4; the fresh tracker
has 0 transactions and average 0. -/
theorem average_transaction_spec_witness :
    ((applyAdds demoArgs).transactions.length = 4 ∧ 1 ≤ 4 ∧
      (applyAdds demoArgs).average_transaction =
        ((applyAdds demoArgs).transactions.map (fun t => t.amount)).sum / (4 : ℚ)) ∧
    (FinanceTracker.new.transactions.length = 0 ∧
      FinanceTracker.new.average_transaction = 0) :=
  ⟨⟨rfl, by decide,
      (average_transaction_spec (applyAdds demoArgs) 4 rfl).2 (by decide)⟩,
    ⟨rfl, (average_transaction_spec FinanceTracker.new 0 rfl).1 rfl⟩⟩

/-- Claim C6: partition property — after any sequence of adds, `total_income`
plus `total_expense` equals the sum of `amount` over all transactions
(every transaction's kind is either `Income` or `Expense`). -/
theorem partition_spec (args : List AddArgs) :
    (applyAdds args).total_income + (applyAdds args).total_expense =
      ((applyAdds args).transactions.map (fun t => t.amount)).sum :=
  kindSum_partition (applyAdds args).transactions

/-- Claim C7: text-to-kind conversion is case-insensitive and total: a string
lowercasing to "income" converts to `Income`, one lowercasing to
"expense" converts to `Expense`, and any other string (the empty string
included) converts to `Expense`. -/
theorem fromStr_spec (s : String) :
    (toLowerStr s = "income" → TransactionType.fromStr s = TransactionType.Income) ∧
    (toLowerStr s = "expense" → TransactionType.fromStr s = TransactionType.Expense) ∧
    (toLowerStr s ≠ "income" → TransactionType.fromStr s = TransactionType.Expense) := by
  refine ⟨fun h => ?_, fun h => ?_, fun h => ?_⟩ <;>
    simp [TransactionType.fromStr, h]

/-- Witness for C7: "INCOME" lowercases to "income" and converts to
`Income`; the empty string does not lowercase to "income" and converts to
`Expense`. -/
theorem fromStr_spec_witness :
    (toLowerStr "INCOME" = "income" ∧
      TransactionType.fromStr "INCOME" = TransactionType.Income) ∧
    (toLowerStr "" ≠ "income" ∧
      TransactionType.fromStr "" = TransactionType.Expense) :=
  ⟨⟨by decide, (fromStr_spec "INCOME").1 (by decide)⟩,
    ⟨by decide, (fromStr_spec "").2.2 (by decide)⟩⟩

/-- Claim C8: `add_transaction` appends exactly one transaction at the end,
leaving every previously stored transaction unchanged (the old list is a
prefix of the new one, element for element), leaving `category_totals`
unchanged at every key other than the added transaction's category, and
`get_transactions` returns the stored list in insertion order. -/
theorem add_frame_spec (tr : FinanceTracker) (d : String) (a : ℚ) (r : Bool)
    (dt : String) (ty : TransactionType) (c c' : String) (h : c' ≠ c) :
    (tr.add_transaction d a r dt ty c).transactions =
      tr.transactions ++ [{ id := tr.next_id, description := d, amount := a,
                            is_recurring := r, date := dt,
                            transaction_type := ty, category := c }] ∧
    (tr.add_transaction d a r dt ty c).get_transactions =
      (tr.add_transaction d a r dt ty c).transactions ∧
    tr.get_transactions = tr.transactions ∧
    lookupTotal (tr.add_transaction d a r dt ty c).category_totals c' =
      lookupTotal tr.category_totals c' := by
  refine ⟨rfl, rfl, rfl, ?_⟩
  simp [FinanceTracker.add_transaction, lookupTotal_updateTotals_ne _ _ _ _ h]

/-- Witness for C8: adding a "Food" transaction to the fresh tracker
leaves the total of the unrelated key "Other" unchanged. -/
theorem add_frame_spec_witness :
    ("Other" : String) ≠ "Food" ∧
    lookupTotal (FinanceTracker.new.add_transaction "Groceries" 500 false
        "2024-01-10" TransactionType.Expense "Food").category_totals "Other" =
      lookupTotal FinanceTracker.new.category_totals "Other" :=
  ⟨by decide,
    (add_frame_spec FinanceTracker.new "Groceries" 500 false "2024-01-10"
        TransactionType.Expense "Food" "Other" (by decide)).2.2.2⟩

/-- Claim C9: after any sequence of adds, the `unique_categories` set has
exactly the members of the key set of the `category_totals` mapping. -/
theorem categories_keys_spec (args : List AddArgs) (c : String) :
    c ∈ (applyAdds args).unique_categories ↔
      c ∈ ((applyAdds args).category_totals).map Prod.fst := by
  obtain ⟨-, -, h3⟩ := trackerInv_applyAdds args
  rw [mem_keys_iff_isSome]
  exact h3 c

/-- Claim C10: `parse_amount` accepts the non-finite numeric texts "inf",
"-inf" and "NaN" (producing the corresponding non-finite values), so the
interactive amount loop accepts them on the first prompt and they reach
`add_transaction`; a non-numeric string such as "abc" is rejected and
only makes the loop re-prompt. -/
theorem parse_amount_nonfinite_spec (rest : List String) :
    parse_amount "inf" = some FloatVal.posInf ∧
    parse_amount "-inf" = some FloatVal.negInf ∧
    parse_amount "NaN" = some FloatVal.nan ∧
    amountLoop ("inf" :: rest) = some FloatVal.posInf ∧
    amountLoop ("NaN" :: rest) = some FloatVal.nan ∧
    parse_amount "abc" = none ∧
    amountLoop ("abc" :: rest) = amountLoop rest := by
  refine ⟨by decide, by decide, by decide, ?_, ?_, by decide, ?_⟩ <;> rfl
